import Mathlib

/-!
Verification of the Atlas streaming chat relay (`hyper-atlas-prototype`).

The development shallowly embeds the parts of the TypeScript source that the
checked properties are about:

* `src/app/api/chat/route.ts` — the stream orchestrator: per-chunk text
  extraction, citation extraction from grounding metadata, the consolidated
  citations event, persistence side effects, title generation, and the
  terminal `done`/`error` events (`runEvents`, `dbTrace`).
* `src/lib/fileMapping.ts` — the SharePoint citation resolver
  (`resolveSharePointUrl`) and its TTL cache (`loadMappings`).
* `src/components/Chat.tsx` — the client read loop that splits each network
  read on the `"\n\n"` delimiter and JSON-parses `data: `-prefixed segments
  (`clientParsed`).

External effects (the Gemini stream, the database, S3, the clock) are passed
in as explicit parameters; machine strings are Lean `String`s, and the wire
bytes of the client decoder are `List Char` (the client uses
`TextDecoder(..., stream: true)`, so reads are split at character, not byte,
granularity by the time `split("\n\n")` runs).
-/

namespace Atlas

/-! ## Data model (`src/lib/types.ts`) -/

/-- `Citation` from `src/lib/types.ts`: `id`, `sourceTitle`, optional
`sourceUri`, excerpt `text`. -/
structure Citation where
  id : Nat
  sourceTitle : String
  sourceUri : Option String
  text : String
deriving DecidableEq

/-- The retrieved-context record of one upstream grounding chunk
(`grChunk.retrievedContext` in `route.ts`): optional `title`, `uri`, `text`. -/
structure RetrievedContext where
  title : Option String
  uri : Option String
  text : Option String
deriving DecidableEq

/-- One element of `groundingMetadata.groundingChunks`; the route only looks
at its `retrievedContext` field, which may be absent. -/
structure GroundingChunk where
  retrievedContext : Option RetrievedContext
deriving DecidableEq

/-- One unit of the upstream model stream (`chunk` in the
`for await (const chunk of stream)` loop of `route.ts`), collapsed along the
optional chains the route reads: `candidates?.[0]?.content?.parts` (a list of
parts whose `text` may be absent) and
`candidates?.[0]?.groundingMetadata?.groundingChunks`. -/
structure StreamChunk where
  parts : Option (List (Option String))
  groundingChunks : Option (List GroundingChunk)
deriving DecidableEq

/-- The server-to-client stream events of the wire protocol
(the `type` discriminated payloads of `route.ts`). -/
inductive Event where
  | text (content : String)
  | citations (cs : List Citation)
  | title (t : String)
  | error (msg : String)
  | done
deriving DecidableEq

/-! ## Orchestrator (`src/app/api/chat/route.ts`) -/

/-- JavaScript `a || d` for an optional string `a`: the default wins when the
value is absent or empty (falsy). Used for
`retrievedContext.title || "Unknown Source"` and
`retrievedContext.text || ""`. -/
def jsOr (s : Option String) (d : String) : String :=
  match s with
  | some v => if v = "" then d else v
  | none => d

/-- Text of one upstream chunk:
`chunk.candidates?.[0]?.content?.parts?.map((part) => part.text).join("") || ""`
(`route.ts` lines 111-114). `Array.prototype.join` renders an absent element
as the empty string. -/
def chunkText (c : StreamChunk) : String :=
  match c.parts with
  | none => ""
  | some l => String.join (l.map (fun p => p.getD ("")))

/-- The `groundingChunks.forEach((grChunk, index) => ...)` body of `route.ts`
lines 129-139: each chunk that carries a `retrievedContext` is pushed as a
citation with `id = index + 1`, where `index` is the position inside this
unit's `groundingChunks` array (chunks without context still advance the
index). -/
def citationsFrom (idx : Nat) : List GroundingChunk → List Citation
  | [] => []
  | gc :: rest =>
    match gc.retrievedContext with
    | some rc =>
        { id := idx + 1
          sourceTitle := jsOr rc.title ("Unknown Source")
          sourceUri := rc.uri
          text := jsOr rc.text ("") } :: citationsFrom (idx + 1) rest
    | none => citationsFrom (idx + 1) rest

/-- Citations contributed by one upstream unit (`forEach` starts at index 0). -/
def citationsOfUnit (gcs : List GroundingChunk) : List Citation :=
  citationsFrom 0 gcs

/-- All citations pushed over a sequence of upstream units, in arrival order
(the module-level `citations` array of `route.ts`). -/
def citationsOf (chunks : List StreamChunk) : List Citation :=
  (chunks.map (fun c => citationsOfUnit (c.groundingChunks.getD []))).flatten

/-- The inputs of one chat turn, with external outcomes made explicit:
`failAfter = some n` means the upstream stream iteration throws after
delivering `n` chunks; `userId`/`conversationId` are the presence of the
Clerk user and of a conversation id in the request; `owns` is the result of
the ownership query (`route.ts` lines 57-65); `insertAssistantOk` is whether
the assistant-message insert succeeds; `titleResult = some t` means
`generateTitle` and the subsequent title update both succeed with title `t`
(`none` covers a throw anywhere in the inner title `try`); `historyEmpty` is
`history.length === 0` (`isFirstMessage`). -/
structure TurnInput where
  chunks : List StreamChunk
  failAfter : Option Nat
  userId : Bool
  conversationId : Bool
  owns : Bool
  insertAssistantOk : Bool
  titleResult : Option String
  historyEmpty : Bool

/-- The chunks actually consumed before the stream ends or throws. -/
def processedChunks (i : TurnInput) : List StreamChunk :=
  match i.failAfter with
  | some n => i.chunks.take n
  | none => i.chunks

/-- The nonempty per-chunk texts, in production order (`if (text)` gate of
`route.ts` line 116). -/
def textsOf (i : TurnInput) : List String :=
  (processedChunks i).filterMap (fun c =>
    if chunkText c = "" then none else some (chunkText c))

/-- The accumulated `fullResponse` (`route.ts` line 117). Skipped empty texts
contribute nothing, so this is the join of all chunk texts. -/
def fullResponse (i : TurnInput) : String :=
  String.join ((processedChunks i).map chunkText)

/-- The guard of the persistence block:
`if (userId && conversationId && fullResponse)` (`route.ts` line 153). -/
def persistGate (i : TurnInput) : Bool :=
  i.userId && i.conversationId && !(fullResponse i = "")

/-- The ordered event sequence of one turn, as enqueued by the
`ReadableStream.start` body of `route.ts` (lines 106-196): text deltas in
order; one consolidated `citations` event when any citation was collected;
then, inside the persistence block of a first exchange, a `title` event when
title generation and persistence succeed; finally `done` — except that a
throw from the stream iteration or from the assistant insert reaches the
outer catch, which enqueues `error` instead. -/
def runEvents (i : TurnInput) : List Event :=
  let texts := (textsOf i).map Event.text
  match i.failAfter with
  | some _ => texts ++ [Event.error ("Streaming failed")]
  | none =>
    let cs := citationsOf (processedChunks i)
    let base := texts ++ (if cs = [] then [] else [Event.citations cs])
    if persistGate i then
      if i.insertAssistantOk then
        if i.historyEmpty then
          match i.titleResult with
          | some t => base ++ [Event.title t, Event.done]
          | none => base ++ [Event.done]
        else base ++ [Event.done]
      else base ++ [Event.error ("Streaming failed")]
    else base ++ [Event.done]

/-- Message roles as persisted. -/
inductive Role where
  | user
  | assistant
deriving DecidableEq

/-- One database write performed by the chat route. `updateConv t b` is a
`db.update(conversations).set(...)`: `t` the title written (if any), `b`
whether `updatedAt` is written. -/
inductive DbOp where
  | insertMsg (r : Role)
  | updateConv (t : Option String) (bumpsUpdatedAt : Bool)
deriving DecidableEq

/-- The ordered database writes of one turn. Before streaming, the user
message is inserted and `updatedAt` bumped only when a user and conversation
are present and the ownership query matches (`route.ts` lines 55-80). After
a successful stream, the assistant message is inserted when
`userId && conversationId && fullResponse` — with no ownership re-check —
and, on a first exchange whose title step succeeds, one update writes the
title together with `updatedAt` (lines 152-180). -/
def dbTrace (i : TurnInput) : List DbOp :=
  let userOps :=
    if i.userId && i.conversationId && i.owns then
      [DbOp.insertMsg Role.user, DbOp.updateConv none true]
    else []
  match i.failAfter with
  | some _ => userOps
  | none =>
    if persistGate i then
      if i.insertAssistantOk then
        userOps ++ [DbOp.insertMsg Role.assistant] ++
          (if i.historyEmpty then
            match i.titleResult with
            | some t => [DbOp.updateConv (some t) true]
            | none => []
          else [])
      else userOps
    else userOps

/-! ## Citation resolver and file-mapping cache (`src/lib/fileMapping.ts`) -/

/-- One entry of the S3 `file-mapping.json` document
(the `FileMapping` interface). -/
structure FileMapping where
  fileName : String
  sourcePath : String
  sharePointUrl : String
deriving DecidableEq

/-- The mapping snapshot (`FileMappings = Record<string, FileMapping>`),
as an association list in JSON key order (`Object.values` iterates string
keys in insertion order). -/
def FileMappings := List (String × FileMapping)

instance : DecidableEq FileMappings := by
  unfold FileMappings
  infer_instance

/-- JavaScript `haystack.includes(needle)`: contiguous substring test. -/
def jsIncludes (haystack needle : String) : Bool :=
  decide (needle.toList <:+: haystack.toList)

/-- The regex `fileName.replace(/\.[^/.]+$/, "")` of `fileMapping.ts` line 92:
drop a trailing `.ext` whose extension is nonempty and contains neither `.`
nor `/`, else leave the string unchanged. `ext` below is the reversed run of
characters after the last dot. -/
def stripExt (s : String) : String :=
  let r := s.toList.reverse
  let ext := r.takeWhile (fun c => c ≠ '.')
  let rest := r.dropWhile (fun c => c ≠ '.')
  match rest with
  | '.' :: before =>
      if ext = [] ∨ '/' ∈ ext then s else String.mk before.reverse
  | _ => s

/-- `resolveSharePointUrl` (`fileMapping.ts` lines 71-103), with the mapping
snapshot passed explicitly (the source obtains it from `loadMappings`).
A falsy (absent or empty) title short-circuits to `undefined`; then
strategy 1 is the direct key lookup, strategy 2 scans entries for an exact
`fileName` match, and strategy 3 scans for a bidirectional substring match
(`title.includes(fileName) || title.includes(fileNameWithoutExt) ||
fileName.includes(title)`), each scan returning the first hit's
`sharePointUrl`. -/
def resolveSharePointUrl (mappings : FileMappings) (title : String) :
    Option String :=
  if title = "" then none
  else
    match mappings.lookup title with
    | some entry => some entry.sharePointUrl
    | none =>
      match mappings.find? (fun kv => kv.2.fileName = title) with
      | some kv => some kv.2.sharePointUrl
      | none =>
        match mappings.find? (fun kv =>
            jsIncludes title kv.2.fileName ||
            jsIncludes title (stripExt kv.2.fileName) ||
            jsIncludes kv.2.fileName title) with
        | some kv => some kv.2.sharePointUrl
        | none => none

/-- The resolver exactly as the specification words it: the three strategies
tried in order on every title, with no empty-title short-circuit. Kept
separate so the source function can be compared against the spec's wording. -/
def resolveSpec (mappings : FileMappings) (title : String) : Option String :=
  match mappings.lookup title with
  | some entry => some entry.sharePointUrl
  | none =>
    match mappings.find? (fun kv => kv.2.fileName = title) with
    | some kv => some kv.2.sharePointUrl
    | none =>
      match mappings.find? (fun kv =>
          jsIncludes title kv.2.fileName ||
          jsIncludes title (stripExt kv.2.fileName) ||
          jsIncludes kv.2.fileName title) with
      | some kv => some kv.2.sharePointUrl
      | none => none

/-- The module-level cache of `fileMapping.ts`:
`cachedMappings` and `cacheTimestamp`. -/
structure CacheState where
  cachedMappings : Option FileMappings
  cacheTimestamp : Nat
deriving DecidableEq

/-- `CACHE_TTL_MS = 5 * 60 * 1000`. -/
def CACHE_TTL_MS : Nat := 5 * 60 * 1000

/-- Outcome of one S3 fetch attempt: a parsed body, a missing or empty body
(`if (!body)`), or a throw from the client, the request, or `JSON.parse`. -/
inductive FetchOutcome where
  | fetched (m : FileMappings)
  | emptyBody
  | fetchError
deriving DecidableEq

/-- Result of one `loadMappings()` call: the mappings served to the caller,
the cache state left behind, and whether an S3 fetch was attempted. -/
structure LoadResult where
  served : FileMappings
  state : CacheState
  attempted : Bool
deriving DecidableEq

/-- `loadMappings` (`fileMapping.ts` lines 19-62), one call: serve the cache
when it is populated and younger than the TTL; otherwise, with no bucket
configured, serve an empty mapping without fetching; otherwise attempt one
fetch — on success cache and serve the new snapshot with `cacheTimestamp =
now`, on an empty body serve an empty mapping leaving the cache untouched,
and on a throw serve `cachedMappings || {}` leaving the cache untouched. -/
def loadMappings (st : CacheState) (now : Nat) (bucketSet : Bool)
    (outcome : FetchOutcome) : LoadResult :=
  match st.cachedMappings with
  | some m =>
    if now - st.cacheTimestamp < CACHE_TTL_MS then ⟨m, st, false⟩
    else loadMappingsFetch st now bucketSet outcome
  | none => loadMappingsFetch st now bucketSet outcome
where
  loadMappingsFetch (st : CacheState) (now : Nat) (bucketSet : Bool)
      (outcome : FetchOutcome) : LoadResult :=
    if !bucketSet then ⟨[], st, false⟩
    else
      match outcome with
      | FetchOutcome.fetched m => ⟨m, ⟨some m, now⟩, true⟩
      | FetchOutcome.emptyBody => ⟨[], st, true⟩
      | FetchOutcome.fetchError => ⟨st.cachedMappings.getD [], st, true⟩

/-- `invalidateMappingsCache` (`fileMapping.ts` lines 131-134). -/
def invalidateMappingsCache : CacheState :=
  ⟨none, 0⟩

/-! ## Client stream consumer (`src/components/Chat.tsx`)

The `sendMessage` read loop decodes each network read with
`decoder.decode(value, { stream: true })`, splits the resulting string on
`"\n\n"`, and for every part that starts with `"data: "` runs `JSON.parse`
on `part.slice(6)`, warning and continuing when the parse throws. No buffer
is carried from one read to the next. We model the decoded reads as lists
of characters. -/

/-- Decoded wire text. -/
abbrev Wire := List Char

/-- JavaScript `s.split("\n\n")`: leftmost non-overlapping splitting on the
two-character delimiter; the final (possibly empty, possibly partial)
segment is included. -/
def splitOnDoubleNewline : Wire → List Wire
  | [] => [[]]
  | [c] => [[c]]
  | c :: d :: rest =>
    if c = '\n' ∧ d = '\n' then [] :: splitOnDoubleNewline rest
    else
      match splitOnDoubleNewline (d :: rest) with
      | [] => [[c]]
      | seg :: segs => (c :: seg) :: segs

/-- Parsed JSON values (the result of the client's `JSON.parse`). -/
inductive JVal where
  | jnull
  | jbool (b : Bool)
  | jnum (n : Int)
  | jstr (s : Wire)
  | jarr (elems : List JVal)
  | jobj (fields : List (Wire × JVal))

/-- JSON string escapes recognised by the payload parser (the escapes
`JSON.stringify` emits for the payloads in scope). -/
def escChar (c : Char) : Option Char :=
  if c = '"' then some '"'
  else if c = '\\' then some '\\'
  else if c = '/' then some '/'
  else if c = 'n' then some '\n'
  else if c = 't' then some '\t'
  else if c = 'r' then some '\r'
  else none

/-- Body of a JSON string after its opening quote: the unescaped content and
the remainder after the closing quote. A raw newline or a missing closing
quote fails, as in `JSON.parse`. -/
def parseStrBody : Wire → Option (Wire × Wire)
  | [] => none
  | '"' :: rest => some ([], rest)
  | '\\' :: c :: rest =>
    match escChar c with
    | some e => (parseStrBody rest).map (fun p => (e :: p.1, p.2))
    | none => none
  | c :: rest =>
    if c = '\n' then none
    else (parseStrBody rest).map (fun p => (c :: p.1, p.2))

/-- A nonempty run of decimal digits and the remainder. -/
def parseNatNum (s : Wire) : Option (Nat × Wire) :=
  let ds := s.takeWhile Char.isDigit
  if ds = [] then none
  else
    some (ds.foldl (fun acc c => acc * 10 + (c.toNat - '0'.toNat)) 0,
      s.dropWhile Char.isDigit)

/-- Opening brace character, written by code point. -/
def lbrace : Char := Char.ofNat 123

/-- Closing brace character, written by code point. -/
def rbrace : Char := Char.ofNat 125

mutual

/-- Recursive-descent JSON value parser (whitespace-free inputs, integer
numerals), fuelled for termination: returns the value and the remainder. -/
def parseVal : Nat → Wire → Option (JVal × Wire)
  | 0, _ => none
  | fuel + 1, s =>
    match s with
    | [] => none
    | c :: rest =>
      if c = '"' then (parseStrBody rest).map (fun p => (JVal.jstr p.1, p.2))
      else if c = lbrace then
        match rest with
        | [] => none
        | d :: rest2 =>
          if d = rbrace then some (JVal.jobj [], rest2)
          else (parseMembers fuel rest).map (fun p => (JVal.jobj p.1, p.2))
      else if c = '[' then
        match rest with
        | [] => none
        | d :: rest2 =>
          if d = ']' then some (JVal.jarr [], rest2)
          else (parseElems fuel rest).map (fun p => (JVal.jarr p.1, p.2))
      else if c = '-' then
        (parseNatNum rest).map (fun p => (JVal.jnum (-(p.1 : Int)), p.2))
      else if c.isDigit then
        (parseNatNum (c :: rest)).map (fun p => (JVal.jnum (p.1 : Int), p.2))
      else
        match s with
        | 'n' :: 'u' :: 'l' :: 'l' :: r => some (JVal.jnull, r)
        | 't' :: 'r' :: 'u' :: 'e' :: r => some (JVal.jbool true, r)
        | 'f' :: 'a' :: 'l' :: 's' :: 'e' :: r => some (JVal.jbool false, r)
        | _ => none

/-- One or more `"key":value` members followed by the closing brace. -/
def parseMembers : Nat → Wire → Option (List (Wire × JVal) × Wire)
  | 0, _ => none
  | fuel + 1, s =>
    match s with
    | [] => none
    | c :: rest =>
      if c = '"' then
        match parseStrBody rest with
        | none => none
        | some (key, afterKey) =>
          match afterKey with
          | [] => none
          | k :: afterColon =>
            if k = ':' then
              match parseVal fuel afterColon with
              | none => none
              | some (v, afterVal) =>
                match afterVal with
                | [] => none
                | d :: rest2 =>
                  if d = ',' then
                    (parseMembers fuel rest2).map
                      (fun p => ((key, v) :: p.1, p.2))
                  else if d = rbrace then some ([(key, v)], rest2)
                  else none
            else none
      else none

/-- One or more array elements followed by the closing bracket. -/
def parseElems : Nat → Wire → Option (List JVal × Wire)
  | 0, _ => none
  | fuel + 1, s =>
    match parseVal fuel s with
    | none => none
    | some (v, afterVal) =>
      match afterVal with
      | [] => none
      | d :: rest2 =>
        if d = ',' then (parseElems fuel rest2).map (fun p => (v :: p.1, p.2))
        else if d = ']' then some ([v], rest2)
        else none

end

/-- The client's `JSON.parse(text)`: the whole input must be consumed. -/
def jsonParse (s : Wire) : Option JVal :=
  match parseVal (s.length + 1) s with
  | some (v, []) => some v
  | _ => none

/-- The `"data: "` marker tested by `line.startsWith("data: ")`. -/
def dataMarker : Wire := 'd' :: 'a' :: 't' :: 'a' :: ':' :: ' ' :: []

/-- Handling of one split part: parts starting with `"data: "` are parsed
from `line.slice(6)`; a parse failure (or a part without the marker) yields
nothing — the code logs a warning and continues. -/
def lineParsed (line : Wire) : Option JVal :=
  if dataMarker.isPrefixOf line then jsonParse (line.drop 6) else none

/-- Events decoded from one network read: the code iterates over every part
of `chunk.split("\n\n")`, including a trailing partial part. -/
def readParsed (r : Wire) : List JVal :=
  (splitOnDoubleNewline r).filterMap lineParsed

/-- The event sequence the read loop extracts from a sequence of reads: each
read is decoded independently (no carry-over buffer between reads). -/
def clientParsed (reads : List Wire) : List JVal :=
  (reads.map readParsed).flatten

/-- One wire frame as the server writes it:
`data: ${JSON.stringify(payload)}\n\n` (`route.ts`). -/
def frameOf (payload : Wire) : Wire :=
  dataMarker ++ payload ++ ('\n' :: '\n' :: [])

/-- The bytes of a run of consecutive frames. -/
def framesOf (payloads : List Wire) : Wire :=
  (payloads.map frameOf).flatten

/-! ## Helper lemmas -/

/-- Ids pushed by the `forEach` over a unit whose grounding chunks all carry
retrieved context: consecutive integers starting at the current index plus
one. -/
theorem citationsFrom_all_ids (rcs : List RetrievedContext) (n : Nat) :
    (citationsFrom n (rcs.map (fun rc => ⟨some rc⟩))).map Citation.id
      = List.range' (n + 1) rcs.length := by
  induction rcs generalizing n with
  | nil => simp [citationsFrom]
  | cons rc rest ih =>
    simp only [List.map_cons, citationsFrom, List.length_cons, List.range']
    exact congrArg (List.cons (n + 1)) (ih (n + 1))

/-- Splitting a newline-free run followed by the delimiter peels off exactly
that run. -/
theorem splitOnDoubleNewline_append (a t : Wire) (h : '\n' ∉ a) :
    splitOnDoubleNewline (a ++ '\n' :: '\n' :: t)
      = a :: splitOnDoubleNewline t := by
  induction a with
  | nil => simp [splitOnDoubleNewline]
  | cons c a' ih =>
    rw [List.mem_cons, not_or] at h
    have hc : ¬ c = '\n' := fun hx => h.1 hx.symm
    have ih' := ih h.2
    cases a' with
    | nil =>
      simp only [List.nil_append] at ih'
      simp [splitOnDoubleNewline, hc, ih']
    | cons e a'' =>
      have he : ¬ (c = '\n' ∧ e = '\n') := fun hx => hc hx.1
      simp only [List.cons_append] at ih' ⊢
      rw [splitOnDoubleNewline, if_neg he, ih']

/-- Splitting the bytes of a run of frames with newline-free payloads yields
the `data: `-prefixed payload lines plus a final empty segment. -/
theorem splitOnDoubleNewline_framesOf (ps : List Wire)
    (h : ∀ p ∈ ps, '\n' ∉ p) :
    splitOnDoubleNewline (framesOf ps)
      = ps.map (fun p => dataMarker ++ p) ++ [[]] := by
  induction ps with
  | nil => simp [framesOf, splitOnDoubleNewline]
  | cons p ps' ih =>
    have hp : '\n' ∉ dataMarker ++ p := by
      rw [List.mem_append (a := '\n')]
      rintro (hm | hm)
      · revert hm; decide
      · exact h p (List.mem_cons_self p ps') hm
    have step : framesOf (p :: ps')
        = (dataMarker ++ p) ++ '\n' :: '\n' :: framesOf ps' := by
      simp [framesOf, frameOf]
    rw [step, splitOnDoubleNewline_append _ _ hp,
      ih (fun q hq => h q (List.mem_cons_of_mem p hq))]
    simp

/-- The marker test and `slice(6)` on a marked line recover the payload. -/
theorem lineParsed_marker (p : Wire) :
    lineParsed (dataMarker ++ p) = jsonParse p := by
  unfold lineParsed
  rw [if_pos]
  · have h6 : dataMarker.length = 6 := rfl
    rw [← h6, List.drop_left]
  · show dataMarker.isPrefixOf (dataMarker ++ p) = true
    simp [List.isPrefixOf_iff_prefix]

/-- An empty segment carries no marker. -/
theorem lineParsed_nil : lineParsed [] = none := rfl

/-- Decoding a whole-frame read recovers the parses of its payloads. -/
theorem readParsed_framesOf (ps : List Wire) (h : ∀ p ∈ ps, '\n' ∉ p) :
    readParsed (framesOf ps) = ps.filterMap jsonParse := by
  unfold readParsed
  rw [splitOnDoubleNewline_framesOf ps h, List.filterMap_append]
  simp only [List.filterMap_map, List.filterMap_cons, lineParsed_nil,
    List.filterMap_nil, List.append_nil]
  exact List.filterMap_congr (fun p _ => lineParsed_marker p)

/-- Flattening before filtering equals filtering the pieces. -/
theorem flatten_filterMap {α β : Type} (f : α → Option β)
    (l : List (List α)) :
    (l.map (fun x => x.filterMap f)).flatten = l.flatten.filterMap f := by
  induction l with
  | nil => rfl
  | cons x l' ih =>
    rw [List.map_cons, List.flatten_cons, List.flatten_cons,
      List.filterMap_append, ih]

/-- Frame encoding commutes with flattening reads. -/
theorem framesOf_flatten (pss : List (List Wire)) :
    (pss.map framesOf).flatten = framesOf pss.flatten := by
  induction pss with
  | nil => rfl
  | cons ps pss' ih =>
    calc ((ps :: pss').map framesOf).flatten
        = framesOf ps ++ (pss'.map framesOf).flatten := by
          rw [List.map_cons, List.flatten_cons]
      _ = framesOf ps ++ framesOf pss'.flatten := by rw [ih]
      _ = framesOf (ps ++ pss'.flatten) := by
          unfold framesOf
          rw [List.map_append, List.flatten_append]
      _ = framesOf (ps :: pss').flatten := by rw [List.flatten_cons]

/-! ## Claims -/

/-- C1, counterexample: two upstream units, each carrying one grounding
reference with retrieved context, produce citation ids `[1, 1]` — the
per-unit `index + 1` restarts for every unit, so ids attached to one message
are neither unique nor a dense `1..n` sequence. -/
theorem c1_counterexample_ids_repeat :
    ((citationsOf
        [⟨none, some [⟨some ⟨some ("Doc A.pdf"), some ("u1"), none⟩⟩]⟩,
         ⟨none, some [⟨some ⟨some ("Doc B.pdf"), some ("u2"), none⟩⟩]⟩]).map
      Citation.id) = [1, 1]
    ∧ ¬ ([1, 1] : List Nat).Nodup := by
  exact ⟨rfl, by decide⟩

/-- C1, amended: when all grounding references of a message arrive inside a
single upstream unit and every grounding chunk carries retrieved context,
the citation ids are exactly `1, 2, ..., n` in first-seen order; ids restart
at 1 for every further upstream unit (see the counterexample). -/
theorem c1_ids_dense_single_unit (rcs : List RetrievedContext) :
    (citationsOfUnit (rcs.map (fun rc => ⟨some rc⟩))).map Citation.id
      = List.range' 1 rcs.length :=
  citationsFrom_all_ids rcs 0

/-- C2: the route builds each emitted citation with `sourceUri` taken
directly from the upstream `retrievedContext.uri`; it never consults
`resolveSharePointUrl`, whose result for the same title differs on the
documented mapping example — contradicting `docs/sharepoint-sync.md` and
`CLAUDE.md`, which state the chat route resolves citation URLs through
`src/lib/fileMapping.ts`. -/
theorem c2_sourceUri_not_resolved :
    citationsOfUnit
        [⟨some ⟨some ("Solutions Brief.pdf"), some ("gemini://internal/abc"),
          some ("excerpt")⟩⟩]
      = [⟨1, "Solutions Brief.pdf", some ("gemini://internal/abc"), "excerpt"⟩]
    ∧ resolveSharePointUrl
        [("Commercial Roadmap/Solutions Brief.pdf",
          ⟨"Solutions Brief.pdf", "Commercial Roadmap/Solutions Brief.pdf",
            "https://company.sharepoint.com/s/brief"⟩)]
        "Solutions Brief.pdf"
      = some ("https://company.sharepoint.com/s/brief")
    ∧ (some ("gemini://internal/abc") : Option String)
        ≠ some ("https://company.sharepoint.com/s/brief") := by
  refine ⟨rfl, by decide, by decide⟩

/-- C3, counterexample: a turn whose upstream stream succeeds but whose
assistant-message insert throws ends with an `error` event and never emits
`done` — the insert sits inside the same `try` as the streaming loop. -/
theorem c3_counterexample_insert_failure :
    runEvents ⟨[⟨some [some ("Hi")], none⟩], none, true, true, true, false,
        none, false⟩
      = [Event.text ("Hi"), Event.error ("Streaming failed")]
    ∧ Event.done
        ∉ runEvents ⟨[⟨some [some ("Hi")], none⟩], none, true, true, true,
            false, none, false⟩ := by
  exact ⟨rfl, by decide⟩

/-- C3, amended: when the upstream stream completes but the persistence
write of the finalized assistant message fails, the outer catch emits a
terminal `error` event and the turn ends without `done`; the failure is not
swallowed. -/
theorem c3_persistence_failure_errors (i : TurnInput)
    (hs : i.failAfter = none) (hg : persistGate i = true)
    (ho : i.insertAssistantOk = false) :
    (runEvents i).getLast? = some (Event.error ("Streaming failed"))
      ∧ Event.done ∉ runEvents i := by
  have hev : runEvents i
      = ((textsOf i).map Event.text
          ++ (if citationsOf (processedChunks i) = [] then []
              else [Event.citations (citationsOf (processedChunks i))]))
        ++ [Event.error ("Streaming failed")] := by
    simp [runEvents, hs, hg, ho]
  rw [hev]
  constructor
  · exact List.getLast?_concat _
  · by_cases hc : citationsOf (processedChunks i) = [] <;> simp [hc]

/-- C3 witness: the amended statement at the counterexample's input. -/
theorem c3_witness :
    (runEvents ⟨[⟨some [some ("Hi")], none⟩], none, true, true, true, false,
        none, false⟩).getLast? = some (Event.error ("Streaming failed"))
      ∧ Event.done
          ∉ runEvents ⟨[⟨some [some ("Hi")], none⟩], none, true, true, true,
              false, none, false⟩ :=
  c3_persistence_failure_errors _ rfl (by decide) rfl

/-- C5, counterexample: an empty title is falsy, so `resolveSharePointUrl`
returns `undefined` before trying any strategy, although strategy 3
(`fileName.includes(title)`) matches every entry for the empty title. -/
theorem c5_counterexample_empty_title :
    resolveSharePointUrl [("A/B.pdf", ⟨"B.pdf", "A/B.pdf", "U"⟩)] "" = none
    ∧ resolveSpec [("A/B.pdf", ⟨"B.pdf", "A/B.pdf", "U"⟩)] "" = some ("U") := by
  exact ⟨rfl, by decide⟩

/-- C5, amended: for every nonempty title the resolver behaves exactly as
the specified strategy cascade (exact key, exact file name, bidirectional
substring with and without extension, else absent); an empty or missing
title short-circuits to absent without consulting the mapping. -/
theorem c5_strategies_nonempty_title (m : FileMappings) (t : String)
    (h : t ≠ "") : resolveSharePointUrl m t = resolveSpec m t := by
  unfold resolveSharePointUrl resolveSpec
  rw [if_neg h]

/-- C5 witness: the amended statement at a concrete mapping and title. -/
theorem c5_witness :
    resolveSharePointUrl [("A/B.pdf", ⟨"B.pdf", "A/B.pdf", "U"⟩)] "B.pdf"
      = resolveSpec [("A/B.pdf", ⟨"B.pdf", "A/B.pdf", "U"⟩)] "B.pdf" :=
  c5_strategies_nonempty_title _ _ (by decide)

/-- C6, counterexample: an expired, populated cache whose refresh attempt
returns an empty body serves the empty mapping — not the previous
snapshot — while leaving the cache untouched. -/
theorem c6_counterexample_empty_body :
    loadMappings ⟨some [("k", ⟨"f.pdf", "k", "u"⟩)], 0⟩ 300000 true
        FetchOutcome.emptyBody
      = ⟨[], ⟨some [("k", ⟨"f.pdf", "k", "u"⟩)], 0⟩, true⟩
    ∧ ([("k", (⟨"f.pdf", "k", "u"⟩ : FileMapping))] : FileMappings)
        ≠ [] := by
  exact ⟨rfl, by decide⟩

/-- C6, amended: a lookup within the TTL of a populated cache serves the
cached snapshot without fetching; a lookup observing an expired or
invalidated cache with a configured bucket makes exactly one fetch attempt;
and when that attempt throws, the previous snapshot (or the empty mapping
when none exists) is served and the cache is left unchanged. A refresh that
returns an empty body instead serves the empty mapping even over an
existing snapshot (see the counterexample), and with no bucket configured
no attempt is made. -/
theorem c6_cache_policy (st : CacheState) (now : Nat) (b : Bool)
    (o : FetchOutcome) :
    (∀ m, st.cachedMappings = some m →
        now - st.cacheTimestamp < CACHE_TTL_MS →
        loadMappings st now b o = ⟨m, st, false⟩)
    ∧ ((st.cachedMappings = none
          ∨ CACHE_TTL_MS ≤ now - st.cacheTimestamp) → b = true →
        (loadMappings st now b o).attempted = true)
    ∧ ((st.cachedMappings = none
          ∨ CACHE_TTL_MS ≤ now - st.cacheTimestamp) → b = true →
        o = FetchOutcome.fetchError →
        (loadMappings st now b o).served = st.cachedMappings.getD []
          ∧ (loadMappings st now b o).state = st) := by
  refine ⟨?_, ?_, ?_⟩
  · intro m hm hlt
    simp [loadMappings, hm, hlt]
  · intro hexp hb
    subst hb
    cases hcm : st.cachedMappings with
    | none => cases o <;> simp [loadMappings, hcm, loadMappings.loadMappingsFetch]
    | some m =>
      have hex : CACHE_TTL_MS ≤ now - st.cacheTimestamp := by
        rcases hexp with hc | hex
        · rw [hcm] at hc; exact absurd hc (by simp)
        · exact hex
      have hnlt : ¬ (now - st.cacheTimestamp < CACHE_TTL_MS) := by omega
      cases o <;>
        simp [loadMappings, hcm, hnlt, loadMappings.loadMappingsFetch]
  · intro hexp hb hoe
    subst hb
    subst hoe
    cases hcm : st.cachedMappings with
    | none => simp [loadMappings, hcm, loadMappings.loadMappingsFetch]
    | some m =>
      have hex : CACHE_TTL_MS ≤ now - st.cacheTimestamp := by
        rcases hexp with hc | hex
        · rw [hcm] at hc; exact absurd hc (by simp)
        · exact hex
      have hnlt : ¬ (now - st.cacheTimestamp < CACHE_TTL_MS) := by omega
      simp [loadMappings, hcm, hnlt, loadMappings.loadMappingsFetch]

/-- C6 witness: a fresh populated cache serves its snapshot without a fetch
attempt. -/
theorem c6_witness :
    loadMappings ⟨some [("k", ⟨"f.pdf", "k", "u"⟩)], 0⟩ 1 true
        FetchOutcome.fetchError
      = ⟨[("k", ⟨"f.pdf", "k", "u"⟩)],
          ⟨some [("k", ⟨"f.pdf", "k", "u"⟩)], 0⟩, false⟩ :=
  (c6_cache_policy _ 1 true _).1 _ rfl (by decide)

/-- Last element of a list extended by two elements. -/
theorem getLast?_append_two {α : Type} (l : List α) (a b : α) :
    (l ++ [a, b]).getLast? = some b := by
  have h : l ++ [a, b] = (l ++ [a]) ++ [b] := by simp
  rw [h]
  exact List.getLast?_concat _

/-- C4, counterexample: one `done` frame split into two reads (the split
inside the JSON payload) decodes to no event at all, while decoding the same
bytes as one contiguous read yields the event — the loop keeps no buffer
across reads, so the first fragment fails `JSON.parse` and the second lacks
the `data: ` marker. -/
theorem c4_counterexample_split_frame :
    clientParsed
        [("data: \x7b\"type\":\"done\"").toList, ("\x7d\n\n").toList] = []
    ∧ clientParsed
        [("data: \x7b\"type\":\"done\"").toList ++ ("\x7d\n\n").toList]
      = [JVal.jobj [(("type").toList, JVal.jstr (("done").toList))]]
    ∧ ([] : List JVal)
        ≠ [JVal.jobj [(("type").toList, JVal.jstr (("done").toList))]] := by
  refine ⟨rfl, rfl, ?_⟩
  intro hx
  exact List.cons_ne_nil _ _ hx.symm

/-- C4, amended: when every read is a concatenation of whole frames — each
frame being `data: ` ++ payload ++ the double-newline delimiter with a
newline-free payload, exactly as the server writes them — the read loop
produces the same parsed-event sequence as decoding the entire byte stream
as one contiguous buffer. A frame split across two reads is instead dropped
(see the counterexample): the loop retains no trailing partial segment
between reads. -/
theorem c4_frame_aligned_reads (pss : List (List Wire))
    (h : ∀ p ∈ pss.flatten, '\n' ∉ p) :
    clientParsed (pss.map framesOf)
      = clientParsed [framesOf pss.flatten] := by
  have hL : clientParsed (pss.map framesOf)
      = (pss.flatten).filterMap jsonParse := by
    unfold clientParsed
    rw [List.map_map]
    have hmap : pss.map (readParsed ∘ framesOf)
        = pss.map (fun ps => ps.filterMap jsonParse) :=
      List.map_congr_left (fun ps hps =>
        readParsed_framesOf ps (fun p hp =>
          h p (List.mem_flatten.mpr ⟨ps, hps, hp⟩)))
    rw [hmap, flatten_filterMap]
  have hR : clientParsed [framesOf pss.flatten]
      = (pss.flatten).filterMap jsonParse := by
    unfold clientParsed
    simp only [List.map_cons, List.map_nil, List.flatten_cons,
      List.flatten_nil, List.append_nil]
    exact readParsed_framesOf _ h
  rw [hL, hR]

/-- C4 witness: the amended statement at two single-frame reads. -/
theorem c4_witness :
    clientParsed
        ([[("\x7b\"type\":\"text\",\"content\":\"Hi\"\x7d").toList],
          [("\x7b\"type\":\"done\"\x7d").toList]].map framesOf)
      = clientParsed
          [framesOf
            ([[("\x7b\"type\":\"text\",\"content\":\"Hi\"\x7d").toList],
              [("\x7b\"type\":\"done\"\x7d").toList]]).flatten] :=
  c4_frame_aligned_reads _ (by decide)

/-- C7: every turn's event sequence consists of the text events in
production order, then an optional consolidated citations event, then an
optional title event, then exactly one terminal event (`done` or `error`)
with nothing after it. -/
theorem c7_event_order (i : TurnInput) :
    ∃ (ts : List String) (co : Option (List Citation)) (tl : Option String)
      (tm : Event),
      runEvents i
        = ts.map Event.text ++ (co.map Event.citations).toList
            ++ (tl.map Event.title).toList ++ [tm]
      ∧ (tm = Event.done ∨ ∃ m, tm = Event.error m) := by
  cases hf : i.failAfter with
  | some n =>
    refine ⟨textsOf i, none, none, Event.error ("Streaming failed"),
      ?_, Or.inr ⟨_, rfl⟩⟩
    simp [runEvents, hf]
  | none =>
    refine ⟨textsOf i,
      if citationsOf (processedChunks i) = [] then none
        else some (citationsOf (processedChunks i)),
      if persistGate i && i.insertAssistantOk && i.historyEmpty then
        i.titleResult else none,
      if persistGate i && !i.insertAssistantOk then
        Event.error ("Streaming failed") else Event.done, ?_, ?_⟩
    · by_cases hc : citationsOf (processedChunks i) = [] <;>
        by_cases hg : persistGate i = true <;>
          by_cases ho : i.insertAssistantOk = true <;>
            by_cases hh : i.historyEmpty = true <;>
              cases ht : i.titleResult <;>
                simp [runEvents, hf, hc, hg, ho, hh, ht]
    · by_cases he : (persistGate i && !i.insertAssistantOk) = true
      · rw [if_pos he]
        exact Or.inr ⟨_, rfl⟩
      · rw [if_neg he]
        exact Or.inl rfl

/-- C8: in a first-exchange turn whose answer streamed and whose assistant
message persisted, a failure of the title step is swallowed: no title event
is emitted, no title (and no accompanying updated-at) is written, and the
turn still ends with `done`. -/
theorem c8_title_failure_swallowed (i : TurnInput)
    (hs : i.failAfter = none) (hg : persistGate i = true)
    (ho : i.insertAssistantOk = true) (hh : i.historyEmpty = true)
    (ht : i.titleResult = none) :
    (∀ t, Event.title t ∉ runEvents i)
      ∧ (runEvents i).getLast? = some Event.done
      ∧ (∀ t b, DbOp.updateConv (some t) b ∉ dbTrace i) := by
  have hev : runEvents i
      = ((textsOf i).map Event.text
          ++ (if citationsOf (processedChunks i) = [] then []
              else [Event.citations (citationsOf (processedChunks i))]))
        ++ [Event.done] := by
    simp [runEvents, hs, hg, ho, hh, ht]
  refine ⟨?_, ?_, ?_⟩
  · intro t
    rw [hev]
    by_cases hc : citationsOf (processedChunks i) = [] <;> simp [hc]
  · rw [hev]
    exact List.getLast?_concat _
  · intro t b
    by_cases hu : (i.userId && (i.conversationId && i.owns)) = true <;>
      simp [dbTrace, hs, hg, ho, hh, ht, hu]

/-- C8 witness: the statement at a concrete successful first exchange whose
title call fails. -/
theorem c8_witness :
    Event.title ("T")
        ∉ runEvents ⟨[⟨some [some ("Hello")], none⟩], none, true, true, true,
            true, none, true⟩
      ∧ (runEvents ⟨[⟨some [some ("Hello")], none⟩], none, true, true, true,
            true, none, true⟩).getLast? = some Event.done
      ∧ DbOp.updateConv (some ("T")) true
          ∉ dbTrace ⟨[⟨some [some ("Hello")], none⟩], none, true, true, true,
              true, none, true⟩ :=
  ⟨(c8_title_failure_swallowed
      ⟨[⟨some [some ("Hello")], none⟩], none, true, true, true, true, none,
        true⟩ rfl (by decide) rfl rfl rfl).1 _,
   (c8_title_failure_swallowed
      ⟨[⟨some [some ("Hello")], none⟩], none, true, true, true, true, none,
        true⟩ rfl (by decide) rfl rfl rfl).2.1,
   (c8_title_failure_swallowed
      ⟨[⟨some [some ("Hello")], none⟩], none, true, true, true, true, none,
        true⟩ rfl (by decide) rfl rfl rfl).2.2 _ _⟩

/-- C9, counterexample: a successful non-first turn ends its database writes
with the assistant-message insert — no updated-at write follows it, although
the user-message insert earlier in the turn was followed by one. -/
theorem c9_counterexample_no_bump :
    dbTrace ⟨[⟨some [some ("Hi")], none⟩], none, true, true, true, true,
        some ("T"), false⟩
      = [DbOp.insertMsg Role.user, DbOp.updateConv none true,
          DbOp.insertMsg Role.assistant]
    ∧ (dbTrace ⟨[⟨some [some ("Hi")], none⟩], none, true, true, true, true,
          some ("T"), false⟩).getLast?
        = some (DbOp.insertMsg Role.assistant) := by
  exact ⟨rfl, rfl⟩

/-- C9, amended: updated-at advances together with every persisted
user-message append; after an assistant-message append it advances exactly
when the turn is the conversation's first exchange and the title step
succeeds — the title update carries the only bump of the assistant phase. -/
theorem c9_updatedAt_policy (i : TurnInput) :
    ((DbOp.insertMsg Role.user ∈ dbTrace i)
        ↔ (DbOp.updateConv none true ∈ dbTrace i))
    ∧ ((∃ t, DbOp.updateConv (some t) true ∈ dbTrace i)
        ↔ (DbOp.insertMsg Role.assistant ∈ dbTrace i
            ∧ i.historyEmpty = true ∧ i.titleResult.isSome = true)) := by
  cases hf : i.failAfter with
  | some n =>
    by_cases hu : (i.userId && (i.conversationId && i.owns)) = true <;>
      simp [dbTrace, hf, hu]
  | none =>
    by_cases hu : (i.userId && (i.conversationId && i.owns)) = true <;>
      by_cases hg : persistGate i = true <;>
        by_cases ho : i.insertAssistantOk = true <;>
          by_cases hh : i.historyEmpty = true <;>
            cases ht : i.titleResult <;>
              simp [dbTrace, hf, hu, hg, ho, hh, ht]

/-- C10, counterexample: an authenticated request naming a conversation the
user does not own streams the full answer (text, citations, done), skips the
user-message insert — and still inserts the assistant message, because the
gate before the assistant insert never re-checks ownership. -/
theorem c10_counterexample_not_owned :
    runEvents ⟨[⟨some [some ("Hi")],
        some [⟨some ⟨some ("Doc"), some ("u"), none⟩⟩]⟩], none, true, true,
        false, true, none, false⟩
      = [Event.text ("Hi"),
          Event.citations [⟨1, "Doc", some ("u"), ""⟩], Event.done]
    ∧ dbTrace ⟨[⟨some [some ("Hi")],
          some [⟨some ⟨some ("Doc"), some ("u"), none⟩⟩]⟩], none, true, true,
          false, true, none, false⟩
        = [DbOp.insertMsg Role.assistant] := by
  exact ⟨rfl, rfl⟩

/-- C10, amended: with no authenticated user or no conversation id, the
answer streams in full and every persistence side effect is skipped; with an
authenticated user and a conversation id the user does not own, the
user-message insert is skipped but the assistant-message insert still
executes whenever any text was produced (title generation then follows on a
first exchange) — and the answer streams to `done` regardless. -/
theorem c10_persistence_gates (i : TurnInput) (hs : i.failAfter = none)
    (ho : i.insertAssistantOk = true) :
    ((i.userId && i.conversationId) = false → dbTrace i = [])
    ∧ (i.owns = false → DbOp.insertMsg Role.user ∉ dbTrace i)
    ∧ (runEvents i).getLast? = some Event.done
    ∧ (i.owns = false → (i.userId && i.conversationId) = true →
        ¬ fullResponse i = "" →
        DbOp.insertMsg Role.assistant ∈ dbTrace i) := by
  refine ⟨?_, ?_, ?_, ?_⟩
  · intro hn
    have h1 : i.userId = false ∨ i.conversationId = false := by
      cases hx : i.userId <;> cases hy : i.conversationId <;> simp_all
    rcases h1 with h | h <;> simp [dbTrace, hs, persistGate, h]
  · intro hw
    by_cases hg : persistGate i = true <;>
      by_cases hh : i.historyEmpty = true <;>
        cases ht : i.titleResult <;>
          simp [dbTrace, hs, hw, ho, hg, hh, ht]
  · by_cases hg : persistGate i = true <;>
      by_cases hh : i.historyEmpty = true <;>
        cases ht : i.titleResult <;>
          simp [runEvents, hs, ho, hg, hh, ht, List.getLast?_concat,
            getLast?_append_two]
  · intro hw hn hr
    have hx : i.userId = true := by
      cases hxx : i.userId <;> simp_all
    have hy : i.conversationId = true := by
      cases hyy : i.conversationId <;> simp_all
    have hpg : persistGate i = true := by
      simp [persistGate, hx, hy, hr]
    by_cases hh : i.historyEmpty = true <;>
      cases ht : i.titleResult <;>
        simp [dbTrace, hs, hw, ho, hpg, hh, ht]

/-- C10 witness: the amended statement at a concrete not-owned input, all
hypotheses discharged. -/
theorem c10_witness :
    DbOp.insertMsg Role.user
        ∉ dbTrace ⟨[⟨some [some ("Hi")], none⟩], none, true, true, false,
            true, none, false⟩
    ∧ (runEvents ⟨[⟨some [some ("Hi")], none⟩], none, true, true, false,
          true, none, false⟩).getLast? = some Event.done
    ∧ DbOp.insertMsg Role.assistant
        ∈ dbTrace ⟨[⟨some [some ("Hi")], none⟩], none, true, true, false,
            true, none, false⟩ :=
  ⟨(c10_persistence_gates
      ⟨[⟨some [some ("Hi")], none⟩], none, true, true, false, true, none,
        false⟩ rfl rfl).2.1 rfl,
   (c10_persistence_gates
      ⟨[⟨some [some ("Hi")], none⟩], none, true, true, false, true, none,
        false⟩ rfl rfl).2.2.1,
   (c10_persistence_gates
      ⟨[⟨some [some ("Hi")], none⟩], none, true, true, false, true, none,
        false⟩ rfl rfl).2.2.2 rfl rfl (by decide)⟩

end Atlas
